import Mathlib

/-!
Shallow embedding of `vkit_open_model/loss_function/adaptive_scaling.py`
(classes `AdaptiveScalingRoughLossFunction` and
`AdaptiveScalingPreciseLossFunction`) over rational-valued list tensors.

Conventions of the embedding:
* A torch tensor of rank n is a nested `List ℚ` of depth n, indexed in the
  same order as the torch dimensions.
* Transcendental torch operations (`torch.log`, `torch.sigmoid`, and the
  square root inside `torch.linalg.norm`) are carried as explicit function
  parameters (`TorchOps`): the claims under study never depend on their
  analytic values, only on which tensors they are applied to.
* A Python `assert` failure (and hence an `AssertionError` escaping
  `__call__`) is modelled by the value `none` of the `Option ℚ` result.
* Machine floats are modelled as exact rationals.
-/

/-- Spatial dimensions of a rank-2 slice: a list of rows. -/
abbrev Tensor2 : Type := List (List ℚ)

/-- Rank-3 tensor (batch, height, width) or (batch, point, channel). -/
abbrev Tensor3 : Type := List Tensor2

/-- Rank-4 tensor (batch, channel, height, width). -/
abbrev Tensor4 : Type := List Tensor3

/-- `vkit.element.Box`: an axis-aligned rectangle with inclusive integer
bounds, as used for the downsampled core box. -/
structure Box where
  up : Nat
  down : Nat
  left : Nat
  right : Nat

/-- Element access on a rank-2 tensor. -/
def get2 (t : Tensor2) (i j : Nat) : Option ℚ :=
  (t[i]?).bind fun row => row[j]?

/-- Element access on a rank-3 tensor. -/
def get3 (t : Tensor3) (b i j : Nat) : Option ℚ :=
  (t[b]?).bind fun s => get2 s i j

/-- Element access on a rank-4 tensor. -/
def get4 (t : Tensor4) (b c i j : Nat) : Option ℚ :=
  (t[b]?).bind fun s => get3 s c i j

/-- Number of scalar elements in a rank-2 tensor. -/
def numel2 (t : Tensor2) : Nat :=
  (t.map List.length).sum

/-- Elementwise map over a rank-3 tensor. -/
def map3 (f : ℚ → ℚ) (t : Tensor3) : Tensor3 :=
  t.map fun s => s.map fun row => row.map f

/-- `torch.squeeze(t, dim=1)` on a `(B, 1, H, W)` tensor: drop the
channel dimension, keeping each sample's single channel. -/
def squeeze1 (t : Tensor4) : Tensor3 :=
  t.map fun s => s.headD []

/-- The inclusive core-box crop
`t[:, box.up : box.down + 1, box.left : box.right + 1]` applied to a
`(B, H, W)` tensor, exactly as both `AdaptiveScalingRoughLossFunction.__call__`
and `AdaptiveScalingPreciseLossFunction.__call__` write it (Python slices
with non-negative bounds: drop then take). -/
def cropHW (t : Tensor3) (box : Box) : Tensor3 :=
  t.map fun s =>
    ((s.drop box.up).take (box.down + 1 - box.up)).map fun row =>
      (row.drop box.left).take (box.right + 1 - box.left)

/-- A `(B, H, W)`-shaped rank-3 tensor: every sample has `h` rows of
length `w`. -/
def isRect3 (t : Tensor3) (h w : Nat) : Bool :=
  t.all fun s => s.length == h && s.all fun row => row.length == w

/-- A `(H, W)`-shaped rank-2 tensor: `h` rows of length `w`. -/
def isRect2 (t : Tensor2) (h w : Nat) : Bool :=
  t.length == h && t.all fun row => row.length == w

/-- Truncating three-way zip, used to lift the elementwise conjunction of
the critical mask over nested list tensors. -/
def zipWith3 {α β γ δ : Type} (f : α → β → γ → δ) :
    List α → List β → List γ → List δ
  | a :: as, b :: bs, c :: cs => f a b c :: zipWith3 f as bs cs
  | _, _, _ => []

/-- `AdaptiveScalingRoughLossFunctionConifg` (spelling as in the source),
with the attrs field defaults. -/
structure AdaptiveScalingRoughLossFunctionConifg where
  bce_negative_ratio : ℚ := 3
  bce_factor : ℚ := 0
  focal_factor : ℚ := 5
  dice_factor : ℚ := 1
  l1_factor : ℚ := 1
  downsampled_score_map_min : ℚ := 11/10
  char_height_feature_min : ℚ := 11/10

/-- The default rough-loss configuration (all attrs defaults). -/
def roughConifgDefault : AdaptiveScalingRoughLossFunctionConifg := {}

/-- Transcendental torch operations appearing in the loss code
(`torch.log`, `torch.sigmoid`, and the square root used by
`torch.linalg.norm`), carried as explicit parameters of the embedding. -/
structure TorchOps where
  log : ℚ → ℚ
  sigmoid : ℚ → ℚ
  sqrt : ℚ → ℚ

/-- Modelled from the spec: the elementary loss primitives
(`WeightedBceWithLogitsLossFunction` — with its negative ratio folded in,
`FocalWithLogitsLossFunction`, `DiceLossFunction`,
`WeightAdaptiveHeatmapRegressionLossFunction`,
`CrossEntropyWithLogitsLossFunction`) are repository code outside `src/`;
the spec describes them only as pure functions of prediction and ground
truth reduced to a scalar, so they are kept as abstract function fields. -/
structure ElementaryLossPrimitives where
  weightedBceWithLogits : Tensor3 → Tensor3 → ℚ
  focalWithLogits : Tensor3 → Tensor3 → ℚ
  dice : Tensor3 → Tensor3 → ℚ
  weightAdaptiveHeatmapRegression : Tensor3 → Tensor3 → ℚ
  crossEntropyWithLogits : Tensor3 → Tensor3 → ℚ

/-- Modelled from the spec: the elementwise smooth L1 value of
`L1LossFunction(smooth=True, smooth_beta=beta)` (code outside `src/`):
quadratic below the transition point `beta`, linear beyond it. -/
def smoothL1Elem (beta x : ℚ) : ℚ :=
  if |x| < beta then x ^ 2 / (2 * beta) else |x| - beta / 2

/-- Modelled from the spec: reduce an elementwise loss list to the mean
over contributing elements, optionally restricted by a 0/1 mask. -/
def reduceLoss (elems : List ℚ) (mask : Option (List ℚ)) : ℚ :=
  match mask with
  | none => elems.sum / (elems.length : ℚ)
  | some m => (List.zipWith (fun a b => a * b) elems m).sum / m.sum

/-- Flatten a rank-2 tensor to its element list. -/
def flat2 (t : Tensor2) : List ℚ := t.flatten

/-- Flatten a rank-3 tensor to its element list. -/
def flat3 (t : Tensor3) : List ℚ := t.flatten.flatten

/-- Modelled from the spec: smooth L1 loss over flattened elements with an
optional mask (the repository's `L1LossFunction` with `smooth=True`). -/
def smoothL1Flat (beta : ℚ) (pred gt : List ℚ) (mask : Option (List ℚ)) : ℚ :=
  reduceLoss ((pred.zip gt).map fun p => smoothL1Elem beta (p.1 - p.2)) mask

/-- Smooth L1 over rank-3 tensors (torch losses are rank-polymorphic). -/
def smoothL1T3 (beta : ℚ) (pred gt : Tensor3) (mask : Option Tensor3) : ℚ :=
  smoothL1Flat beta (flat3 pred) (flat3 gt) (mask.map flat3)

/-- Smooth L1 over rank-2 tensors, unmasked. -/
def smoothL1T2 (beta : ℚ) (pred gt : Tensor2) : ℚ :=
  smoothL1Flat beta (flat2 pred) (flat2 gt) none

/-- Modelled from the spec: squared-error loss over flattened elements
with an optional mask (the repository's `L2LossFunction`). -/
def l2Flat (pred gt : List ℚ) (mask : Option (List ℚ)) : ℚ :=
  reduceLoss ((pred.zip gt).map fun p => (p.1 - p.2) ^ 2) mask

/-- L2 loss over rank-3 tensors. -/
def l2T3 (pred gt : Tensor3) (mask : Option Tensor3) : ℚ :=
  l2Flat (flat3 pred) (flat3 gt) (mask.map flat3)

/-- `torch.clamp(t, min=m)` on a rank-3 tensor. -/
def clamp3 (t : Tensor3) (m : ℚ) : Tensor3 :=
  map3 (fun x => max x m) t

/-- One elementwise conjunct of the rough loss's critical mask
(`(h > char_height_feature_min) & (s > downsampled_score_map_min) & m.bool()`,
then `.float()`): the float-tensor `.bool()` is `≠ 0`. -/
def l1MaskElem (config : AdaptiveScalingRoughLossFunctionConifg)
    (h s m : ℚ) : ℚ :=
  if config.char_height_feature_min < h ∧ config.downsampled_score_map_min < s ∧ m ≠ 0
  then 1 else 0

/-- The critical mask of the rough loss scale branch (source lines
112-114), lifted elementwise over the cropped height prediction, the
score map and the ground-truth mask. -/
def l1Mask (config : AdaptiveScalingRoughLossFunctionConifg)
    (hgt score mask : Tensor3) : Tensor3 :=
  zipWith3
    (fun h2 s2 m2 =>
      zipWith3 (fun h1 s1 m1 => zipWith3 (l1MaskElem config) h1 s1 m1) h2 s2 m2)
    hgt score mask

/-- One accumulation step `if factor > 0: loss += factor * term` of the
Python code, on the optional accumulator (`none` models the accumulator
still being the float `0.0`). -/
def gatedAccum (f t : ℚ) (acc : Option ℚ) : Option ℚ :=
  if 0 < f then some (acc.getD 0 + f * t) else acc

/-- The contribution of a factor-gated sub-term to the final sum. -/
def gate (f t : ℚ) : ℚ :=
  if 0 < f then f * t else 0

/-- Shape equality of rank-2 tensors. -/
def sameShape2 (a b : Tensor2) : Bool :=
  a.length == b.length && (a.zip b).all fun p => p.1.length == p.2.length

/-- Shape equality of rank-3 tensors. -/
def sameShape3 (a b : Tensor3) : Bool :=
  a.length == b.length && (a.zip b).all fun p => sameShape2 p.1 p.2

/-- Shape equality of rank-4 tensors. -/
def sameShape4 (a b : Tensor4) : Bool :=
  a.length == b.length && (a.zip b).all fun p => sameShape3 p.1 p.2

/-- The assertion `feature.shape[1:] == (1, *downsampled_shape)` on a
rank-4 tensor. -/
def tailShape4 (t : Tensor4) (shape : Nat × Nat) : Bool :=
  t.all fun s => s.length == 1 && s.all fun ch => isRect2 ch shape.1 shape.2

/-- The scale-regression term of the rough loss (source lines 110-128):
critical-masked smooth L1 in log space between the clamped height
prediction and the clamped score map. -/
def roughScaleTerm (config : AdaptiveScalingRoughLossFunctionConifg)
    (ops : TorchOps) (hgt score mask : Tensor3) : ℚ :=
  smoothL1T3 1
    (map3 ops.log (clamp3 hgt config.char_height_feature_min))
    (map3 ops.log (clamp3 score config.downsampled_score_map_min))
    (some (l1Mask config hgt score mask))

/-- `AdaptiveScalingRoughLossFunction.__call__`: shape assertions, squeeze
and inclusive core-box crop of the two predictions, then the factor-gated
accumulation of the BCE, focal, Dice and scale terms. A `none` result
models an `AssertionError` (including the final
`assert not isinstance(loss, float)` when no term was accumulated). -/
def AdaptiveScalingRoughLossFunction.call
    (config : AdaptiveScalingRoughLossFunctionConifg)
    (prims : ElementaryLossPrimitives) (ops : TorchOps)
    (rough_char_mask_feature rough_char_height_feature : Tensor4)
    (downsampled_mask downsampled_score_map : Tensor3)
    (downsampled_shape : Nat × Nat) (downsampled_core_box : Box) : Option ℚ :=
  if sameShape4 rough_char_mask_feature rough_char_height_feature then
    if tailShape4 rough_char_mask_feature downsampled_shape then
      let m := cropHW (squeeze1 rough_char_mask_feature) downsampled_core_box
      let hgt := cropHW (squeeze1 rough_char_height_feature) downsampled_core_box
      let acc := gatedAccum config.bce_factor
        (prims.weightedBceWithLogits m downsampled_mask) none
      let acc := gatedAccum config.focal_factor
        (prims.focalWithLogits m downsampled_mask) acc
      let acc := gatedAccum config.dice_factor
        (prims.dice (map3 ops.sigmoid m) downsampled_mask) acc
      gatedAccum config.l1_factor
        (roughScaleTerm config ops hgt downsampled_score_map downsampled_mask) acc
    else none
  else none

theorem sum_map_const {α : Type} (l : List α) (f : α → Nat) (c : Nat)
    (h : ∀ x ∈ l, f x = c) : (l.map f).sum = l.length * c := by
  induction l with
  | nil => simp
  | cons a l ih =>
    simp only [List.map_cons, List.sum_cons, List.length_cons]
    rw [h a (List.mem_cons_self a l), ih fun x hx => h x (List.mem_cons_of_mem a hx)]
    ring

/-- C2: on a `(B, H, W)` tensor with a core box satisfying the invariant
`up ≤ down < H`, `left ≤ right < W`, every sample of the inclusive crop
has exactly `(down - up + 1) * (right - left + 1)` elements; a degenerate
box with `down = up` and `right = left` yields one element per sample. -/
theorem cropHW_numel (t : Tensor3) (box : Box) (h w : Nat)
    (hrect : isRect3 t h w = true)
    (hud : box.up ≤ box.down) (hdh : box.down < h)
    (hlr : box.left ≤ box.right) (hrw : box.right < w) :
    (∀ s ∈ cropHW t box,
      numel2 s = (box.down - box.up + 1) * (box.right - box.left + 1)) ∧
    (box.down = box.up → box.right = box.left →
      ∀ s ∈ cropHW t box, numel2 s = 1) := by
  have main : ∀ s ∈ cropHW t box,
      numel2 s = (box.down - box.up + 1) * (box.right - box.left + 1) := by
    intro s hs
    simp only [cropHW, List.mem_map] at hs
    obtain ⟨s0, hs0, rfl⟩ := hs
    simp only [isRect3, List.all_eq_true, Bool.and_eq_true, beq_iff_eq] at hrect
    obtain ⟨hlen, hrow⟩ := hrect s0 hs0
    rw [numel2, List.map_map]
    have hcount :
        (((s0.drop box.up).take (box.down + 1 - box.up)).map
          (List.length ∘ fun row => (row.drop box.left).take (box.right + 1 - box.left))).sum
        = ((s0.drop box.up).take (box.down + 1 - box.up)).length
            * (box.right + 1 - box.left) := by
      apply sum_map_const
      intro row hrowmem
      have hmem : row ∈ s0 := by
        exact List.mem_of_mem_drop (List.mem_of_mem_take hrowmem)
      have hw' : row.length = w := hrow row hmem
      simp only [Function.comp_apply, List.length_take, List.length_drop, hw']
      omega
    rw [hcount]
    have hlen' : ((s0.drop box.up).take (box.down + 1 - box.up)).length
        = box.down - box.up + 1 := by
      simp only [List.length_take, List.length_drop, hlen]
      omega
    rw [hlen']
    have : box.right + 1 - box.left = box.right - box.left + 1 := by omega
    rw [this]
  refine ⟨main, ?_⟩
  intro hdu hrl s hs
  rw [main s hs, hdu, hrl]
  simp

/-- Closed witness for `cropHW_numel`: a `1 × 3 × 3` tensor cropped to the
degenerate box `(1, 1, 2, 2)` has a single element per sample. -/
theorem cropHW_numel_witness :
    (∀ s ∈ cropHW [[[0, 1, 2], [3, 4, 5], [6, 7, 8]]] ⟨1, 1, 2, 2⟩,
      numel2 s = (1 - 1 + 1) * (2 - 2 + 1)) ∧
    (1 = 1 → 2 = 2 →
      ∀ s ∈ cropHW [[[0, 1, 2], [3, 4, 5], [6, 7, 8]]] ⟨1, 1, 2, 2⟩,
        numel2 s = 1) :=
  cropHW_numel [[[0, 1, 2], [3, 4, 5], [6, 7, 8]]] ⟨1, 1, 2, 2⟩ 3 3
    (by decide) (by decide) (by decide) (by decide) (by decide)

theorem zipWith3_getElem_some {α β γ δ : Type} (f : α → β → γ → δ)
    (as : List α) (bs : List β) (cs : List γ) (i : Nat) (d : δ)
    (h : (zipWith3 f as bs cs)[i]? = some d) :
    ∃ a b c, as[i]? = some a ∧ bs[i]? = some b ∧ cs[i]? = some c ∧ d = f a b c := by
  induction as generalizing bs cs i with
  | nil => simp [zipWith3] at h
  | cons a as ih =>
    cases bs with
    | nil => simp [zipWith3] at h
    | cons b bs =>
      cases cs with
      | nil => simp [zipWith3] at h
      | cons c cs =>
        cases i with
        | zero =>
          simp only [zipWith3, List.getElem?_cons_zero, Option.some.injEq] at h
          exact ⟨a, b, c, by simp, by simp, by simp, h.symm⟩
        | succ i =>
          simp only [zipWith3, List.getElem?_cons_succ] at h
          obtain ⟨a', b', c', ha, hb, hc, hd⟩ := ih bs cs i h
          exact ⟨a', b', c', by simpa using ha, by simpa using hb, by simpa using hc, hd⟩

theorem get3_bind {t : Tensor3} {b i j : Nat} {q : ℚ}
    (h : get3 t b i j = some q) :
    ∃ s row, t[b]? = some s ∧ s[i]? = some row ∧ row[j]? = some q := by
  unfold get3 get2 at h
  rcases Option.bind_eq_some.mp h with ⟨s, hs, h2⟩
  rcases Option.bind_eq_some.mp h2 with ⟨row, hrow, h3⟩
  exact ⟨s, row, hs, hrow, h3⟩

/-- C3: the critical mask of the rough scale branch is the elementwise
conjunction of the three conditions, and wherever the ground-truth mask
is false (zero), the critical mask is zero regardless of the height
prediction and the score map. -/
theorem l1Mask_zero_outside_gt_mask
    (config : AdaptiveScalingRoughLossFunctionConifg)
    (hgt score mask : Tensor3) :
    (l1Mask config hgt score mask
      = zipWith3
          (fun h2 s2 m2 =>
            zipWith3 (fun h1 s1 m1 => zipWith3 (l1MaskElem config) h1 s1 m1) h2 s2 m2)
          hgt score mask) ∧
    (∀ b i j q, get3 mask b i j = some 0 →
      get3 (l1Mask config hgt score mask) b i j = some q → q = 0) := by
  refine ⟨rfl, ?_⟩
  intro b i j q hm hq
  obtain ⟨ms, mrow, hms, hmrow, hmval⟩ := get3_bind hm
  obtain ⟨s, row, hs, hrow, hval⟩ := get3_bind hq
  unfold l1Mask at hs
  obtain ⟨h2, s2, m2, _, _, hm2, rfl⟩ := zipWith3_getElem_some _ _ _ _ _ _ hs
  obtain ⟨h1, s1, m1, _, _, hm1, rfl⟩ := zipWith3_getElem_some _ _ _ _ _ _ hrow
  obtain ⟨hv, sv, mv, _, _, hmv, rfl⟩ := zipWith3_getElem_some _ _ _ _ _ _ hval
  rw [hms] at hm2
  cases hm2
  rw [hmrow] at hm1
  cases hm1
  rw [hmval] at hmv
  cases hmv
  simp [l1MaskElem]

/-- Closed witness for `l1Mask_zero_outside_gt_mask` at a concrete input
where the other two conditions hold but the ground-truth mask is zero. -/
theorem l1Mask_zero_outside_gt_mask_witness :
    get3 [[[(0 : ℚ)]]] 0 0 0 = some 0 ∧
    get3 (l1Mask roughConifgDefault [[[5]]] [[[5]]] [[[(0 : ℚ)]]]) 0 0 0 = some 0 ∧
    ∀ q, get3 (l1Mask roughConifgDefault [[[5]]] [[[5]]] [[[(0 : ℚ)]]]) 0 0 0 = some q → q = 0 :=
  ⟨by decide, by simp [l1Mask, zipWith3, get3, get2, l1MaskElem],
    fun q => (l1Mask_zero_outside_gt_mask roughConifgDefault [[[5]]] [[[5]]] [[[0]]]).2
      0 0 0 q (by decide)⟩

theorem get3_map3 (f : ℚ → ℚ) (t : Tensor3) (b i j : Nat) :
    get3 (map3 f t) b i j = (get3 t b i j).map f := by
  unfold get3 get2 map3
  cases ht : t[b]? with
  | none => simp [List.getElem?_map, ht]
  | some s =>
    cases hs : s[i]? with
    | none => simp [List.getElem?_map, ht, hs]
    | some row => simp [List.getElem?_map, ht, hs]

/-- C8: in the rough scale branch the height prediction and the score map
are clamped to the configured minima before `torch.log` is applied: the
tensors to which `log` is mapped inside `roughScaleTerm` are exactly the
`clamp3` results, every element of a `clamp3` result is at least the
minimum, and both minima default to `1.1 > 0`. -/
theorem roughScaleTerm_log_args_clamped
    (config : AdaptiveScalingRoughLossFunctionConifg) (ops : TorchOps)
    (hgt score mask : Tensor3) :
    (roughScaleTerm config ops hgt score mask
      = smoothL1T3 1
          (map3 ops.log (clamp3 hgt config.char_height_feature_min))
          (map3 ops.log (clamp3 score config.downsampled_score_map_min))
          (some (l1Mask config hgt score mask))) ∧
    (∀ (t : Tensor3) (m : ℚ) (b i j : Nat) (q : ℚ),
      get3 (clamp3 t m) b i j = some q → m ≤ q) ∧
    roughConifgDefault.char_height_feature_min = 11/10 ∧
    roughConifgDefault.downsampled_score_map_min = 11/10 ∧
    (0 : ℚ) < 11/10 := by
  refine ⟨rfl, ?_, rfl, rfl, by norm_num⟩
  intro t m b i j q hq
  rw [clamp3, get3_map3] at hq
  rcases Option.map_eq_some'.mp hq with ⟨x, _, hx⟩
  rw [← hx]
  exact le_max_right x m

/-- Closed witness for `roughScaleTerm_log_args_clamped`: a clamped
element below the minimum is raised to it. -/
theorem roughScaleTerm_log_args_clamped_witness :
    get3 (clamp3 [[[(0 : ℚ)]]] (11/10)) 0 0 0 = some (11/10) ∧
    (11/10 : ℚ) ≤ 11/10 :=
  ⟨by norm_num [get3, get2, clamp3, map3, max_def],
    (roughScaleTerm_log_args_clamped roughConifgDefault ⟨id, id, id⟩ [] [] []).2.1
      [[[(0 : ℚ)]]] (11/10) 0 0 0 (11/10)
      (by norm_num [get3, get2, clamp3, map3, max_def])⟩

/-- C4: with `bce_factor = focal_factor = dice_factor = 0` and
`l1_factor = 1`, the rough loss call returns exactly the critical-masked
log-space smooth L1 between the clamped (cropped) height prediction and
the clamped score map, with no contribution from the disabled terms. -/
theorem roughCall_l1_only
    (config : AdaptiveScalingRoughLossFunctionConifg)
    (prims : ElementaryLossPrimitives) (ops : TorchOps)
    (rcmf rchf : Tensor4) (dm dsm : Tensor3)
    (shape : Nat × Nat) (box : Box)
    (hb : config.bce_factor = 0) (hf : config.focal_factor = 0)
    (hd : config.dice_factor = 0) (hl : config.l1_factor = 1)
    (h1 : sameShape4 rcmf rchf = true)
    (h2 : tailShape4 rcmf shape = true) :
    AdaptiveScalingRoughLossFunction.call config prims ops rcmf rchf dm dsm shape box
      = some (smoothL1T3 1
          (map3 ops.log (clamp3 (cropHW (squeeze1 rchf) box) config.char_height_feature_min))
          (map3 ops.log (clamp3 dsm config.downsampled_score_map_min))
          (some (l1Mask config (cropHW (squeeze1 rchf) box) dsm dm))) := by
  unfold AdaptiveScalingRoughLossFunction.call
  rw [h1, h2]
  simp only [if_true]
  unfold gatedAccum roughScaleTerm
  rw [hb, hf, hd, hl]
  norm_num

/-- Closed witness for `roughCall_l1_only` at a concrete one-pixel input. -/
theorem roughCall_l1_only_witness :
    (({ bce_factor := 0, focal_factor := 0, dice_factor := 0, l1_factor := 1 }
        : AdaptiveScalingRoughLossFunctionConifg).bce_factor = 0) ∧
    sameShape4 [[[[1]]]] [[[[2]]]] = true ∧
    tailShape4 [[[[1]]]] (1, 1) = true ∧
    AdaptiveScalingRoughLossFunction.call
      { bce_factor := 0, focal_factor := 0, dice_factor := 0, l1_factor := 1 }
      ⟨fun _ _ => 0, fun _ _ => 0, fun _ _ => 0, fun _ _ => 0, fun _ _ => 0⟩
      ⟨id, id, id⟩ [[[[1]]]] [[[[2]]]] [[[1]]] [[[3]]] (1, 1) ⟨0, 0, 0, 0⟩
      = some (smoothL1T3 1
          (map3 id (clamp3 (cropHW (squeeze1 [[[[2]]]]) ⟨0, 0, 0, 0⟩) (11/10)))
          (map3 id (clamp3 [[[3]]] (11/10)))
          (some (l1Mask { bce_factor := 0, focal_factor := 0, dice_factor := 0, l1_factor := 1 }
            (cropHW (squeeze1 [[[[2]]]]) ⟨0, 0, 0, 0⟩) [[[3]]] [[[1]]]))) :=
  ⟨rfl, by decide, by decide,
    roughCall_l1_only _ _ _ _ _ _ _ _ _ rfl rfl rfl rfl (by decide) (by decide)⟩

/-- `AdaptiveScalingPreciseLossFunctionConifg` (spelling as in the
source), with the attrs field defaults. -/
structure AdaptiveScalingPreciseLossFunctionConifg where
  char_mask_focal_factor : ℚ := 0
  char_prob_l1_factor : ℚ := 0
  char_prob_pos_l2_factor : ℚ := 2
  char_prob_neg_l2_factor : ℚ := 1
  char_prob_wahr_factor : ℚ := 0
  char_up_left_offset_l1_factor : ℚ := 1
  char_up_left_distance_regulation_l1_factor : ℚ := 1
  char_corner_angle_cross_entropy_factor : ℚ := 5
  char_corner_distance_l1_factor : ℚ := 1
  loss_factor : ℚ := 3/20

/-- The default precise-loss configuration (all attrs defaults). -/
def preciseConifgDefault : AdaptiveScalingPreciseLossFunctionConifg := {}

/-- The slice `t[:, :, 1:]` trimming away the up-left channel of the
gathered `(B, P, 4)` corner-distance tensor. -/
def upLeftTrimmedSlice (t : Tensor3) : Tensor3 :=
  t.map fun s => s.map fun v => v.drop 1

/-- The slice `t[:, :, 0:1]` keeping only the up-left channel of the
gathered `(B, P, 4)` corner-distance tensor. -/
def upLeftOnlySlice (t : Tensor3) : Tensor3 :=
  t.map fun s => s.map fun v => v.take 1

/-- `torch.cat` along the last dimension of two `(B, P, *)` tensors. -/
def catDim2 (a b : Tensor3) : Tensor3 :=
  List.zipWith (fun sa sb => List.zipWith (fun va vb => va ++ vb) sa sb) a b

/-- `torch.squeeze(t, dim=2)` on a `(B, P, 1)` tensor. -/
def squeezeDim2 (t : Tensor3) : Tensor2 :=
  t.map fun s => s.map fun v => v.headD 0

/-- `torch.linalg.norm(t, dim=2)` on a `(B, P, 2)` tensor: the L2 norm of
each per-point channel vector, with the square root as a parameter. -/
def l2NormDim2 (ops : TorchOps) (t : Tensor3) : Tensor2 :=
  t.map fun s => s.map fun v => ops.sqrt ((v.map fun x => x ^ 2).sum)

/-- The negative mask `1 - downsampled_char_mask`. -/
def oneMinus3 (t : Tensor3) : Tensor3 :=
  map3 (fun x => 1 - x) t

/-- `t.transpose(1, 2)` on a rectangular `(B, P, C)` tensor. -/
def transposeBatch (t : Tensor3) : Tensor3 :=
  t.map List.transpose

/-- `AdaptiveScalingPreciseLossFunction.get_label_point_feature`: the
advanced indexing `feature[torch.arange(B)[:, None], :, y, x]`, a pure
gather with `out[b, p, c] = feature[b, c, y[b, p], x[b, p]]`. The leading
batch-size assertion is the `none` case; an out-of-range coordinate is a
torch `IndexError` at runtime, modelled by the range guard. -/
def AdaptiveScalingPreciseLossFunction.get_label_point_feature
    (feature : Tensor4) (label_point_y label_point_x : List (List Nat)) :
    Option Tensor3 :=
  if feature.length = label_point_y.length ∧ feature.length = label_point_x.length then
    if (feature.zip (label_point_y.zip label_point_x)).all (fun s =>
        (s.2.1.zip s.2.2).all fun yx =>
          s.1.all fun ch => yx.1 < ch.length && yx.2 < (ch.getD yx.1 []).length) then
      some ((feature.zip (label_point_y.zip label_point_x)).map fun s =>
        (s.2.1.zip s.2.2).map fun yx =>
          s.1.map fun ch => (ch.getD yx.1 []).getD yx.2 0)
    else none
  else none

/-- The shape assertion guarding the optional mask-feature prediction:
`if mask is not None: assert mask.shape == prob.shape`. -/
def maskShapeOK (mask : Option Tensor4) (prob : Tensor4) : Bool :=
  match mask with
  | some mf => sameShape4 mf prob
  | none => true

/-- The char-mask focal branch of the precise loss (source lines
272-277): when the factor is active the mask-feature prediction must be
present (`assert precise_char_mask_feature is not None`, the outer
`none`); otherwise the accumulator is left untouched. -/
def charMaskFocalStep (config : AdaptiveScalingPreciseLossFunctionConifg)
    (prims : ElementaryLossPrimitives) (maskC : Option Tensor3)
    (dcm : Tensor3) : Option (Option ℚ) :=
  if 0 < config.char_mask_focal_factor then
    match maskC with
    | none => none
    | some mC =>
      some (gatedAccum config.char_mask_focal_factor (prims.focalWithLogits mC dcm) none)
  else some none

/-- `AdaptiveScalingPreciseLossFunction.__call__`: shape assertions,
squeeze and inclusive core-box crop of the mask/probability predictions,
label-point gathers of the offset / corner-angle / corner-distance
predictions, corner-angle transposes and corner-distance slices, then the
factor-gated accumulation of the nine sub-terms, and finally the
multiplication by `loss_factor`. A `none` result models an assertion (or
indexing) failure, including the final
`assert not isinstance(loss, float)`. -/
def AdaptiveScalingPreciseLossFunction.call
    (config : AdaptiveScalingPreciseLossFunctionConifg)
    (prims : ElementaryLossPrimitives) (ops : TorchOps)
    (precise_char_mask_feature : Option Tensor4)
    (precise_char_prob_feature : Tensor4)
    (precise_char_up_left_corner_offset_feature : Tensor4)
    (precise_char_corner_angle_feature : Tensor4)
    (precise_char_corner_distance_feature : Tensor4)
    (downsampled_char_prob_score_map : Tensor3)
    (downsampled_char_mask : Tensor3)
    (downsampled_shape : Nat × Nat)
    (downsampled_core_box : Box)
    (downsampled_label_point_y downsampled_label_point_x : List (List Nat))
    (char_up_left_offsets : Tensor3)
    (char_corner_angles : Tensor3)
    (char_corner_distances : Tensor3) : Option ℚ :=
  if maskShapeOK precise_char_mask_feature precise_char_prob_feature then
    if tailShape4 precise_char_prob_feature downsampled_shape then
      let maskC := precise_char_mask_feature.map fun mf =>
        cropHW (squeeze1 mf) downsampled_core_box
      let probC := cropHW (squeeze1 precise_char_prob_feature) downsampled_core_box
      (AdaptiveScalingPreciseLossFunction.get_label_point_feature
          precise_char_up_left_corner_offset_feature
          downsampled_label_point_y downsampled_label_point_x).bind fun offsetPts =>
      (AdaptiveScalingPreciseLossFunction.get_label_point_feature
          precise_char_corner_angle_feature
          downsampled_label_point_y downsampled_label_point_x).bind fun anglePtsRaw =>
      let anglePts := transposeBatch anglePtsRaw
      let anglesGt := transposeBatch char_corner_angles
      (AdaptiveScalingPreciseLossFunction.get_label_point_feature
          precise_char_corner_distance_feature
          downsampled_label_point_y downsampled_label_point_x).bind fun distPts =>
      let trimmed := upLeftTrimmedSlice distPts
      let upLeftOnly := upLeftOnlySlice distPts
      (charMaskFocalStep config prims maskC downsampled_char_mask).bind fun acc0 =>
      let acc1 :=
        if 0 < config.char_prob_l1_factor ∨ 0 < config.char_prob_pos_l2_factor
            ∨ 0 < config.char_prob_neg_l2_factor ∨ 0 < config.char_prob_wahr_factor then
          let sig := map3 ops.sigmoid probC
          gatedAccum config.char_prob_wahr_factor
            (prims.weightAdaptiveHeatmapRegression sig downsampled_char_prob_score_map)
            (gatedAccum config.char_prob_neg_l2_factor
              (l2T3 sig downsampled_char_prob_score_map (some (oneMinus3 downsampled_char_mask)))
              (gatedAccum config.char_prob_pos_l2_factor
                (l2T3 sig downsampled_char_prob_score_map (some downsampled_char_mask))
                (gatedAccum config.char_prob_l1_factor
                  (smoothL1T3 (1/4) sig downsampled_char_prob_score_map
                    (some downsampled_char_mask))
                  acc0)))
        else acc0
      let acc2 := gatedAccum config.char_up_left_offset_l1_factor
        (smoothL1T3 (5/2) offsetPts char_up_left_offsets none) acc1
      let acc3 := gatedAccum config.char_up_left_distance_regulation_l1_factor
        (smoothL1T2 (5/2) (l2NormDim2 ops offsetPts) (squeezeDim2 upLeftOnly)) acc2
      let acc4 := gatedAccum config.char_corner_angle_cross_entropy_factor
        (prims.crossEntropyWithLogits anglePts anglesGt) acc3
      let acc5 := gatedAccum config.char_corner_distance_l1_factor
        (smoothL1T3 (5/2) trimmed char_corner_distances none) acc4
      acc5.map fun v => v * config.loss_factor
    else none
  else none

theorem zipWith_take_drop_append (s : Tensor2) :
    List.zipWith (fun va vb => va ++ vb)
      (s.map fun v => v.take 1) (s.map fun v => v.drop 1) = s := by
  induction s with
  | nil => rfl
  | cons v s ih =>
    simp only [List.map_cons, List.zipWith_cons_cons]
    rw [ih, List.take_append_drop]

/-- C9: for every gathered per-point corner-distance tensor, the
up-left-only part is the slice `[:, :, 0:1]`, the trimmed part is the
slice `[:, :, 1:]`, and concatenating the two along the last dimension
reconstructs the original tensor exactly. -/
theorem cornerDistanceSplit_reconstruct (t : Tensor3) :
    (upLeftOnlySlice t = t.map fun s => s.map fun v => v.take 1) ∧
    (upLeftTrimmedSlice t = t.map fun s => s.map fun v => v.drop 1) ∧
    catDim2 (upLeftOnlySlice t) (upLeftTrimmedSlice t) = t := by
  refine ⟨rfl, rfl, ?_⟩
  unfold catDim2 upLeftOnlySlice upLeftTrimmedSlice
  induction t with
  | nil => rfl
  | cons s t ih =>
    simp only [List.map_cons, List.zipWith_cons_cons, ih]
    rw [zipWith_take_drop_append]

/-- C6: enabling the char-mask focal term without supplying the
mask-feature prediction makes the precise loss call fail (an assertion
error, `none`) whatever the remaining inputs are; with the factor at
zero, the focal step succeeds without touching the accumulator. -/
theorem preciseCall_mask_assert
    (config : AdaptiveScalingPreciseLossFunctionConifg)
    (prims : ElementaryLossPrimitives) (ops : TorchOps)
    (prob off ang dist : Tensor4) (sm dcm : Tensor3)
    (shape : Nat × Nat) (box : Box) (ly lx : List (List Nat))
    (offsets angles distances : Tensor3) :
    (0 < config.char_mask_focal_factor →
      AdaptiveScalingPreciseLossFunction.call config prims ops none
        prob off ang dist sm dcm shape box ly lx offsets angles distances = none) ∧
    (config.char_mask_focal_factor = 0 →
      charMaskFocalStep config prims none dcm = some none) := by
  constructor
  · intro h
    unfold AdaptiveScalingPreciseLossFunction.call
    simp only [maskShapeOK, if_true]
    split
    · cases hg1 : AdaptiveScalingPreciseLossFunction.get_label_point_feature off ly lx with
      | none => simp
      | some o1 =>
        cases hg2 : AdaptiveScalingPreciseLossFunction.get_label_point_feature ang ly lx with
        | none => simp [hg1]
        | some a1 =>
          cases hg3 : AdaptiveScalingPreciseLossFunction.get_label_point_feature dist ly lx with
          | none => simp [hg1, hg2]
          | some d1 => simp [hg1, hg2, hg3, charMaskFocalStep, h]
    · rfl
  · intro h
    simp [charMaskFocalStep, h]

/-- Closed witness for `preciseCall_mask_assert`: a concrete call with an
active focal factor and no mask prediction fails, and the focal step with
factor zero succeeds without a term. -/
theorem preciseCall_mask_assert_witness :
    AdaptiveScalingPreciseLossFunction.call
      { char_mask_focal_factor := 1 }
      ⟨fun _ _ => 0, fun _ _ => 0, fun _ _ => 0, fun _ _ => 0, fun _ _ => 0⟩
      ⟨id, id, id⟩ none [[[[0]]]] [[[[0]]]] [[[[0]]]] [[[[0]]]]
      [[[1]]] [[[1]]] (1, 1) ⟨0, 0, 0, 0⟩ [[0]] [[0]]
      [[[0, 0]]] [[[0, 0, 0, 0]]] [[[0, 0, 0]]] = none ∧
    charMaskFocalStep preciseConifgDefault
      ⟨fun _ _ => 0, fun _ _ => 0, fun _ _ => 0, fun _ _ => 0, fun _ _ => 0⟩
      none [[[1]]] = some none :=
  ⟨(preciseCall_mask_assert { char_mask_focal_factor := 1 }
      ⟨fun _ _ => 0, fun _ _ => 0, fun _ _ => 0, fun _ _ => 0, fun _ _ => 0⟩
      ⟨id, id, id⟩ [[[[0]]]] [[[[0]]]] [[[[0]]]] [[[[0]]]]
      [[[1]]] [[[1]]] (1, 1) ⟨0, 0, 0, 0⟩ [[0]] [[0]]
      [[[0, 0]]] [[[0, 0, 0, 0]]] [[[0, 0, 0]]]).1 (by norm_num),
   (preciseCall_mask_assert preciseConifgDefault
      ⟨fun _ _ => 0, fun _ _ => 0, fun _ _ => 0, fun _ _ => 0, fun _ _ => 0⟩
      ⟨id, id, id⟩ [[[[0]]]] [[[[0]]]] [[[[0]]]] [[[[0]]]]
      [[[1]]] [[[1]]] (1, 1) ⟨0, 0, 0, 0⟩ [[0]] [[0]]
      [[[0, 0]]] [[[0, 0, 0, 0]]] [[[0, 0, 0]]]).2 rfl⟩

/-- C10: with `char_mask_focal_factor = 0`, the precise loss call accepts
a missing mask prediction, and its result does not depend on that
argument: supplying any mask tensor of the required shape gives the same
result as supplying `none`. -/
theorem preciseCall_mask_independent
    (config : AdaptiveScalingPreciseLossFunctionConifg)
    (prims : ElementaryLossPrimitives) (ops : TorchOps)
    (mf prob off ang dist : Tensor4) (sm dcm : Tensor3)
    (shape : Nat × Nat) (box : Box) (ly lx : List (List Nat))
    (offsets angles distances : Tensor3)
    (h0 : config.char_mask_focal_factor = 0)
    (hshape : sameShape4 mf prob = true) :
    AdaptiveScalingPreciseLossFunction.call config prims ops (some mf)
      prob off ang dist sm dcm shape box ly lx offsets angles distances
    = AdaptiveScalingPreciseLossFunction.call config prims ops none
      prob off ang dist sm dcm shape box ly lx offsets angles distances := by
  have hstep : ∀ maskC, charMaskFocalStep config prims maskC dcm = some none := by
    intro maskC
    simp [charMaskFocalStep, h0]
  unfold AdaptiveScalingPreciseLossFunction.call
  simp only [maskShapeOK, hshape, if_true, Option.map_some, Option.map_none, hstep]

/-- Closed witness for `preciseCall_mask_independent` at a concrete
one-pixel input with the default configuration. -/
theorem preciseCall_mask_independent_witness :
    preciseConifgDefault.char_mask_focal_factor = 0 ∧
    sameShape4 [[[[7]]]] [[[[0]]]] = true ∧
    AdaptiveScalingPreciseLossFunction.call preciseConifgDefault
      ⟨fun _ _ => 0, fun _ _ => 0, fun _ _ => 0, fun _ _ => 0, fun _ _ => 0⟩
      ⟨id, id, id⟩ (some [[[[7]]]]) [[[[0]]]] [[[[0]]]] [[[[0]]]] [[[[0]]]]
      [[[1]]] [[[1]]] (1, 1) ⟨0, 0, 0, 0⟩ [[0]] [[0]]
      [[[0, 0]]] [[[0, 0, 0, 0]]] [[[0, 0, 0]]]
    = AdaptiveScalingPreciseLossFunction.call preciseConifgDefault
      ⟨fun _ _ => 0, fun _ _ => 0, fun _ _ => 0, fun _ _ => 0, fun _ _ => 0⟩
      ⟨id, id, id⟩ none [[[[0]]]] [[[[0]]]] [[[[0]]]] [[[[0]]]]
      [[[1]]] [[[1]]] (1, 1) ⟨0, 0, 0, 0⟩ [[0]] [[0]]
      [[[0, 0]]] [[[0, 0, 0, 0]]] [[[0, 0, 0]]] :=
  ⟨rfl, by decide,
    preciseCall_mask_independent preciseConifgDefault
      ⟨fun _ _ => 0, fun _ _ => 0, fun _ _ => 0, fun _ _ => 0, fun _ _ => 0⟩
      ⟨id, id, id⟩ [[[[7]]]] [[[[0]]]] [[[[0]]]] [[[[0]]]] [[[[0]]]]
      [[[1]]] [[[1]]] (1, 1) ⟨0, 0, 0, 0⟩ [[0]] [[0]]
      [[[0, 0]]] [[[0, 0, 0, 0]]] [[[0, 0, 0]]] rfl (by decide)⟩

theorem getD_of_getElem? {α : Type} {l : List α} {i : Nat} {a d : α}
    (h : l[i]? = some a) : l.getD i d = a := by
  simp [List.getD_eq_getElem?_getD, h]

theorem getElem?_of_lt {α : Type} {l : List α} {i n : Nat}
    (hn : l.length = n) (hi : i < n) : ∃ a, l[i]? = some a := by
  have : i < l.length := by omega
  exact ⟨l.get ⟨i, this⟩, by simp [List.getElem?_eq_getElem this]⟩

/-- C7: `get_label_point_feature` on a `(B, C, H, W)` feature and
`(B, P)` in-range coordinate tensors succeeds and is a pure gather: the
result has shape `(B, P, C)` and its `(b, p, c)` entry is the feature
entry at `(b, c, y[b, p], x[b, p])`, with no interpolation and no
core-box cropping applied to the point coordinates. -/
theorem get_label_point_feature_spec
    (feature : Tensor4) (ly lx : List (List Nat)) (B C H W P : Nat)
    (hB : feature.length = B) (hly : ly.length = B) (hlx : lx.length = B)
    (hfeat : ∀ fb ∈ feature, fb.length = C ∧ ∀ ch ∈ fb, isRect2 ch H W = true)
    (hlyP : ∀ r ∈ ly, r.length = P ∧ ∀ y ∈ r, y < H)
    (hlxP : ∀ r ∈ lx, r.length = P ∧ ∀ x ∈ r, x < W) :
    ∃ g, AdaptiveScalingPreciseLossFunction.get_label_point_feature feature ly lx
        = some g ∧
      g.length = B ∧
      (∀ gb ∈ g, gb.length = P ∧ ∀ gp ∈ gb, gp.length = C) ∧
      (∀ b p c, b < B → p < P → c < C →
        get3 g b p c
          = get4 feature b c ((ly.getD b []).getD p 0) ((lx.getD b []).getD p 0)) := by
  have hchlen : ∀ fb ∈ feature, ∀ ch ∈ fb, ch.length = H := by
    intro fb hfb ch hch
    have := (hfeat fb hfb).2 ch hch
    simp only [isRect2, Bool.and_eq_true, beq_iff_eq, List.all_eq_true] at this
    exact this.1
  have hrowlen : ∀ fb ∈ feature, ∀ ch ∈ fb, ∀ row ∈ ch, row.length = W := by
    intro fb hfb ch hch row hrow
    have := (hfeat fb hfb).2 ch hch
    simp only [isRect2, Bool.and_eq_true, beq_iff_eq, List.all_eq_true] at this
    exact this.2 row hrow
  have hguard1 : feature.length = ly.length ∧ feature.length = lx.length := by
    omega
  have hguard2 : ((feature.zip (ly.zip lx)).all fun s =>
      (s.2.1.zip s.2.2).all fun yx =>
        s.1.all fun ch => yx.1 < ch.length && yx.2 < (ch.getD yx.1 []).length) = true := by
    rw [List.all_eq_true]
    rintro ⟨fb, yb, xb⟩ hmem
    obtain ⟨hfbm, hyxm⟩ := List.of_mem_zip hmem
    obtain ⟨hybm, hxbm⟩ := List.of_mem_zip hyxm
    rw [List.all_eq_true]
    rintro ⟨y, x⟩ hyx
    obtain ⟨hym, hxm⟩ := List.of_mem_zip hyx
    rw [List.all_eq_true]
    intro ch hch
    have hH : ch.length = H := hchlen fb hfbm ch hch
    have hy : y < H := (hlyP yb hybm).2 y hym
    have hx : x < W := (hlxP xb hxbm).2 x hxm
    have hylt : y < ch.length := by omega
    obtain ⟨row, hrow⟩ := getElem?_of_lt hH hy
    have hgd : ch.getD y [] = row := getD_of_getElem? hrow
    have hrmem : row ∈ ch := List.getElem?_mem hrow
    have hrW : row.length = W := hrowlen fb hfbm ch hch row hrmem
    simp only [Bool.and_eq_true, decide_eq_true_eq, hgd, hrW]
    exact ⟨hylt, hx⟩
  refine ⟨(feature.zip (ly.zip lx)).map fun s =>
      (s.2.1.zip s.2.2).map fun yx =>
        s.1.map fun ch => (ch.getD yx.1 []).getD yx.2 0, ?_, ?_, ?_, ?_⟩
  · unfold AdaptiveScalingPreciseLossFunction.get_label_point_feature
    rw [if_pos hguard1, if_pos hguard2]
  · simp only [List.length_map, List.length_zip, hB, hly, hlx]
    omega
  · intro gb hgb
    simp only [List.mem_map] at hgb
    obtain ⟨⟨fb, yb, xb⟩, hmem, rfl⟩ := hgb
    obtain ⟨hfbm, hyxm⟩ := List.of_mem_zip hmem
    obtain ⟨hybm, hxbm⟩ := List.of_mem_zip hyxm
    constructor
    · simp only [List.length_map, List.length_zip, (hlyP yb hybm).1, (hlxP xb hxbm).1]
      omega
    · intro gp hgp
      simp only [List.mem_map] at hgp
      obtain ⟨⟨y, x⟩, _, rfl⟩ := hgp
      simp only [List.length_map]
      exact (hfeat fb hfbm).1
  · intro b p c hb hp hc
    obtain ⟨fb, hfb⟩ := getElem?_of_lt hB hb
    obtain ⟨yb, hyb⟩ := getElem?_of_lt hly hb
    obtain ⟨xb, hxb⟩ := getElem?_of_lt hlx hb
    have hybm : yb ∈ ly := List.getElem?_mem hyb
    have hxbm : xb ∈ lx := List.getElem?_mem hxb
    have hfbm : fb ∈ feature := List.getElem?_mem hfb
    obtain ⟨y, hy⟩ := getElem?_of_lt (hlyP yb hybm).1 hp
    obtain ⟨x, hx⟩ := getElem?_of_lt (hlxP xb hxbm).1 hp
    obtain ⟨ch, hch⟩ := getElem?_of_lt (hfeat fb hfbm).1 hc
    have hchm : ch ∈ fb := List.getElem?_mem hch
    have hyH : y < H := (hlyP yb hybm).2 y (List.getElem?_mem hy)
    have hxW : x < W := (hlxP xb hxbm).2 x (List.getElem?_mem hx)
    obtain ⟨row, hrow⟩ := getElem?_of_lt (hchlen fb hfbm ch hchm) hyH
    have hrmem : row ∈ ch := List.getElem?_mem hrow
    obtain ⟨v, hv⟩ := getElem?_of_lt (hrowlen fb hfbm ch hchm row hrmem) hxW
    have hyD : (ly.getD b []).getD p 0 = y := by
      rw [getD_of_getElem? hyb, getD_of_getElem? hy]
    have hxD : (lx.getD b []).getD p 0 = x := by
      rw [getD_of_getElem? hxb, getD_of_getElem? hx]
    rw [hyD, hxD]
    have hzyx : (yb.zip xb)[p]? = some (y, x) :=
      List.getElem?_zip_eq_some.mpr ⟨hy, hx⟩
    have hz : (feature.zip (ly.zip lx))[b]? = some (fb, (yb, xb)) :=
      List.getElem?_zip_eq_some.mpr ⟨hfb, List.getElem?_zip_eq_some.mpr ⟨hyb, hxb⟩⟩
    have hlhs : get3
        ((feature.zip (ly.zip lx)).map fun s =>
          (s.2.1.zip s.2.2).map fun yx =>
            s.1.map fun ch => (ch.getD yx.1 []).getD yx.2 0) b p c
        = some ((ch.getD y []).getD x 0) := by
      unfold get3 get2
      rw [List.getElem?_map, hz]
      simp only [Option.map_some', Option.some_bind]
      rw [List.getElem?_map, hzyx]
      simp only [Option.map_some', Option.some_bind]
      rw [List.getElem?_map, hch]
      simp
    rw [hlhs]
    have hrhs : get4 feature b c y x = some v := by
      unfold get4 get3 get2
      rw [hfb]
      simp only [Option.some_bind]
      rw [hch]
      simp only [Option.some_bind]
      rw [hrow]
      simp only [Option.some_bind]
      exact hv
    rw [hrhs]
    rw [getD_of_getElem? hrow, getD_of_getElem? hv]

/-- Closed witness for `get_label_point_feature_spec` on a
`(1, 2, 1, 1)` feature with one label point per sample. -/
theorem get_label_point_feature_spec_witness :
    List.length ([[[[(3 : ℚ)]], [[4]]]] : Tensor4) = 1 ∧
    (∃ g, AdaptiveScalingPreciseLossFunction.get_label_point_feature
        [[[[(3 : ℚ)]], [[4]]]] [[0]] [[0]] = some g ∧
      g.length = 1 ∧
      (∀ gb ∈ g, gb.length = 1 ∧ ∀ gp ∈ gb, gp.length = 2) ∧
      (∀ b p c, b < 1 → p < 1 → c < 2 →
        get3 g b p c = get4 [[[[(3 : ℚ)]], [[4]]]] b c
          (([[0]].getD b []).getD p 0) (([[0]].getD b []).getD p 0))) :=
  ⟨rfl, get_label_point_feature_spec [[[[(3 : ℚ)]], [[4]]]] [[0]] [[0]] 1 2 1 1 1
    rfl rfl rfl (by decide) (by decide) (by decide)⟩

theorem getD_gatedAccum (f t : ℚ) (acc : Option ℚ) :
    (gatedAccum f t acc).getD 0 = acc.getD 0 + gate f t := by
  unfold gatedAccum gate
  split <;> simp

theorem gate_of_not_pos {f : ℚ} (t : ℚ) (h : ¬ 0 < f) : gate f t = 0 := by
  unfold gate
  exact if_neg h

theorem maskC_getD (mask : Option Tensor4) (box : Box) :
    (mask.map fun mf => cropHW (squeeze1 mf) box).getD []
      = cropHW (squeeze1 (mask.getD [])) box := by
  cases mask <;> simp [cropHW, squeeze1]

theorem charMaskFocalStep_getD
    (config : AdaptiveScalingPreciseLossFunctionConifg)
    (prims : ElementaryLossPrimitives) (maskC : Option Tensor3)
    (dcm : Tensor3) (acc0 : Option ℚ)
    (h : charMaskFocalStep config prims maskC dcm = some acc0) :
    acc0.getD 0 = gate config.char_mask_focal_factor
      (prims.focalWithLogits (maskC.getD []) dcm) := by
  unfold charMaskFocalStep at h
  split at h
  · cases maskC with
    | none => exact absurd h (by simp)
    | some mC =>
      simp only [Option.some.injEq] at h
      rw [← h, getD_gatedAccum]
      simp [Option.getD]
  · simp only [Option.some.injEq] at h
    rw [← h]
    rw [gate_of_not_pos _ (by assumption)]
    simp

/-- Clearly named spec-side definition, following the spec's words: the
sum over exactly the active sub-terms (factor strictly positive) of the
factor times that sub-loss, with the nine sub-losses written out as the
code computes them. -/
def preciseActiveTermSum
    (config : AdaptiveScalingPreciseLossFunctionConifg)
    (prims : ElementaryLossPrimitives) (ops : TorchOps)
    (precise_char_mask_feature : Option Tensor4)
    (precise_char_prob_feature : Tensor4)
    (precise_char_up_left_corner_offset_feature : Tensor4)
    (precise_char_corner_angle_feature : Tensor4)
    (precise_char_corner_distance_feature : Tensor4)
    (downsampled_char_prob_score_map : Tensor3)
    (downsampled_char_mask : Tensor3)
    (downsampled_core_box : Box)
    (downsampled_label_point_y downsampled_label_point_x : List (List Nat))
    (char_up_left_offsets : Tensor3)
    (char_corner_angles : Tensor3)
    (char_corner_distances : Tensor3) : ℚ :=
  let sig := map3 ops.sigmoid
    (cropHW (squeeze1 precise_char_prob_feature) downsampled_core_box)
  let offsetPts := (AdaptiveScalingPreciseLossFunction.get_label_point_feature
    precise_char_up_left_corner_offset_feature
    downsampled_label_point_y downsampled_label_point_x).getD []
  let anglePts := transposeBatch
    ((AdaptiveScalingPreciseLossFunction.get_label_point_feature
      precise_char_corner_angle_feature
      downsampled_label_point_y downsampled_label_point_x).getD [])
  let distPts := (AdaptiveScalingPreciseLossFunction.get_label_point_feature
    precise_char_corner_distance_feature
    downsampled_label_point_y downsampled_label_point_x).getD []
  gate config.char_mask_focal_factor
      (prims.focalWithLogits
        (cropHW (squeeze1 (precise_char_mask_feature.getD [])) downsampled_core_box)
        downsampled_char_mask)
    + gate config.char_prob_l1_factor
        (smoothL1T3 (1/4) sig downsampled_char_prob_score_map (some downsampled_char_mask))
    + gate config.char_prob_pos_l2_factor
        (l2T3 sig downsampled_char_prob_score_map (some downsampled_char_mask))
    + gate config.char_prob_neg_l2_factor
        (l2T3 sig downsampled_char_prob_score_map (some (oneMinus3 downsampled_char_mask)))
    + gate config.char_prob_wahr_factor
        (prims.weightAdaptiveHeatmapRegression sig downsampled_char_prob_score_map)
    + gate config.char_up_left_offset_l1_factor
        (smoothL1T3 (5/2) offsetPts char_up_left_offsets none)
    + gate config.char_up_left_distance_regulation_l1_factor
        (smoothL1T2 (5/2) (l2NormDim2 ops offsetPts)
          (squeezeDim2 (upLeftOnlySlice distPts)))
    + gate config.char_corner_angle_cross_entropy_factor
        (prims.crossEntropyWithLogits anglePts (transposeBatch char_corner_angles))
    + gate config.char_corner_distance_l1_factor
        (smoothL1T3 (5/2) (upLeftTrimmedSlice distPts) char_corner_distances none)

/-- C5: whenever the precise loss call returns a value, that value is
`loss_factor` times the sum over exactly the active sub-terms (factor
strictly positive) of the factor times that sub-loss; disabled sub-terms
contribute nothing. -/
theorem preciseCall_weighted_sum
    (config : AdaptiveScalingPreciseLossFunctionConifg)
    (prims : ElementaryLossPrimitives) (ops : TorchOps)
    (mask : Option Tensor4) (prob off ang dist : Tensor4)
    (sm dcm : Tensor3) (shape : Nat × Nat) (box : Box)
    (ly lx : List (List Nat)) (offsets angles distances : Tensor3) (r : ℚ)
    (hr : AdaptiveScalingPreciseLossFunction.call config prims ops mask
      prob off ang dist sm dcm shape box ly lx offsets angles distances = some r) :
    r = config.loss_factor * preciseActiveTermSum config prims ops mask
      prob off ang dist sm dcm box ly lx offsets angles distances := by
  unfold AdaptiveScalingPreciseLossFunction.call at hr
  split at hr
  · split at hr
    · cases hOff : AdaptiveScalingPreciseLossFunction.get_label_point_feature
          off ly lx with
      | none => rw [hOff] at hr; simp at hr
      | some offPts =>
        rw [hOff] at hr
        simp only [Option.some_bind] at hr
        cases hAng : AdaptiveScalingPreciseLossFunction.get_label_point_feature
            ang ly lx with
        | none => rw [hAng] at hr; simp at hr
        | some angPts =>
          rw [hAng] at hr
          simp only [Option.some_bind] at hr
          cases hDist : AdaptiveScalingPreciseLossFunction.get_label_point_feature
              dist ly lx with
          | none => rw [hDist] at hr; simp at hr
          | some distPts =>
            rw [hDist] at hr
            simp only [Option.some_bind] at hr
            cases hStep : charMaskFocalStep config prims
                (mask.map fun mf => cropHW (squeeze1 mf) box) dcm with
            | none => rw [hStep] at hr; simp at hr
            | some acc0 =>
              rw [hStep] at hr
              simp only [Option.some_bind] at hr
              rcases Option.map_eq_some'.mp hr with ⟨v, hacc, hrv⟩
              apply_fun (fun o => o.getD 0) at hacc
              simp only [Option.getD_some] at hacc
              rw [getD_gatedAccum, getD_gatedAccum, getD_gatedAccum,
                getD_gatedAccum] at hacc
              have hmask : acc0.getD 0 = gate config.char_mask_focal_factor
                  (prims.focalWithLogits
                    (cropHW (squeeze1 (mask.getD [])) box) dcm) := by
                rw [charMaskFocalStep_getD config prims _ dcm acc0 hStep, maskC_getD]
              by_cases hp : 0 < config.char_prob_l1_factor
                  ∨ 0 < config.char_prob_pos_l2_factor
                  ∨ 0 < config.char_prob_neg_l2_factor
                  ∨ 0 < config.char_prob_wahr_factor
              · rw [if_pos hp, getD_gatedAccum, getD_gatedAccum, getD_gatedAccum,
                  getD_gatedAccum, hmask] at hacc
                rw [← hrv, ← hacc]
                unfold preciseActiveTermSum
                simp only [hOff, hAng, hDist, Option.getD_some]
                ring
              · rw [if_neg hp, hmask] at hacc
                simp only [not_or] at hp
                rw [← hrv, ← hacc]
                unfold preciseActiveTermSum
                simp only [hOff, hAng, hDist, Option.getD_some]
                rw [gate_of_not_pos _ hp.1, gate_of_not_pos _ hp.2.1,
                  gate_of_not_pos _ hp.2.2.1, gate_of_not_pos _ hp.2.2.2]
                ring
    · exact Option.noConfusion hr
  · exact Option.noConfusion hr

/-- All-zero instantiation of the abstract loss primitives, for witnesses. -/
def zeroPrims : ElementaryLossPrimitives :=
  ⟨fun _ _ => 0, fun _ _ => 0, fun _ _ => 0, fun _ _ => 0, fun _ _ => 0⟩

/-- Identity instantiation of the transcendental ops, for witnesses. -/
def idOps : TorchOps := ⟨id, id, id⟩

/-- Configuration used by the witness of the weighted-sum theorem: only
the corner-distance term is active. -/
def c5WitnessConifg : AdaptiveScalingPreciseLossFunctionConifg :=
  { char_prob_pos_l2_factor := 0, char_prob_neg_l2_factor := 0,
    char_up_left_offset_l1_factor := 0,
    char_up_left_distance_regulation_l1_factor := 0,
    char_corner_angle_cross_entropy_factor := 0,
    char_corner_distance_l1_factor := 1, loss_factor := 1 }

/-- Closed witness for `preciseCall_weighted_sum` at a concrete one-pixel
one-point input. -/
theorem preciseCall_weighted_sum_witness :
    AdaptiveScalingPreciseLossFunction.call c5WitnessConifg zeroPrims idOps none
      [[[[0]]]] [[[[1]], [[2]]]] [[[[1]], [[1]], [[1]], [[1]]]]
      [[[[1]], [[1]], [[1]], [[1]]]]
      [[[1]]] [[[1]]] (1, 1) ⟨0, 0, 0, 0⟩ [[0]] [[0]]
      [[[1, 2]]] [[[1, 0, 0, 0]]] [[[1, 1, 1]]] = some 0 ∧
    (0 : ℚ) = c5WitnessConifg.loss_factor * preciseActiveTermSum c5WitnessConifg
      zeroPrims idOps none
      [[[[0]]]] [[[[1]], [[2]]]] [[[[1]], [[1]], [[1]], [[1]]]]
      [[[[1]], [[1]], [[1]], [[1]]]]
      [[[1]]] [[[1]]] ⟨0, 0, 0, 0⟩ [[0]] [[0]]
      [[[1, 2]]] [[[1, 0, 0, 0]]] [[[1, 1, 1]]] :=
  have h : AdaptiveScalingPreciseLossFunction.call c5WitnessConifg zeroPrims idOps none
      [[[[0]]]] [[[[1]], [[2]]]] [[[[1]], [[1]], [[1]], [[1]]]]
      [[[[1]], [[1]], [[1]], [[1]]]]
      [[[1]]] [[[1]]] (1, 1) ⟨0, 0, 0, 0⟩ [[0]] [[0]]
      [[[1, 2]]] [[[1, 0, 0, 0]]] [[[1, 1, 1]]] = some 0 := by
    norm_num [AdaptiveScalingPreciseLossFunction.call,
      AdaptiveScalingPreciseLossFunction.get_label_point_feature,
      maskShapeOK, tailShape4, isRect2, charMaskFocalStep, c5WitnessConifg,
      zeroPrims, idOps, gatedAccum, gate, cropHW, squeeze1, map3, oneMinus3,
      transposeBatch, upLeftTrimmedSlice, upLeftOnlySlice, squeezeDim2,
      l2NormDim2, smoothL1T3, smoothL1T2, smoothL1Flat, smoothL1Elem, l2T3,
      l2Flat, reduceLoss, flat3, flat2, List.zip_cons_cons]
  ⟨h, preciseCall_weighted_sum c5WitnessConifg zeroPrims idOps none
    [[[[0]]]] [[[[1]], [[2]]]] [[[[1]], [[1]], [[1]], [[1]]]]
    [[[[1]], [[1]], [[1]], [[1]]]]
    [[[1]]] [[[1]]] (1, 1) ⟨0, 0, 0, 0⟩ [[0]] [[0]]
    [[[1, 2]]] [[[1, 0, 0, 0]]] [[[1, 1, 1]]] 0 h⟩

theorem gatedAccum_zero (t : ℚ) (acc : Option ℚ) : gatedAccum 0 t acc = acc := by
  simp [gatedAccum]

/-- Configuration with only the up-left distance-regulation term active
(`loss_factor` set to one). -/
def c1Conifg : AdaptiveScalingPreciseLossFunctionConifg :=
  { char_prob_pos_l2_factor := 0, char_prob_neg_l2_factor := 0,
    char_up_left_offset_l1_factor := 0,
    char_corner_angle_cross_entropy_factor := 0,
    char_corner_distance_l1_factor := 0, loss_factor := 1 }

/-- C1 counterexample: with every term disabled except the
distance-regulation term, two calls that are identical in every ground
truth and label and differ only in the model's corner-distance
prediction return different losses — so the scalar compared against the
offset norm is the model's own up-left corner-distance prediction
(channel 0 of the gathered corner-distance feature), not an
independently-labeled ground-truth distance (no such label is even
among the inputs: `char_corner_distances` has only the three trimmed
channels). -/
theorem distanceRegulation_not_label_counterexample :
    AdaptiveScalingPreciseLossFunction.call c1Conifg zeroPrims idOps none
      [[[[0]]]] [[[[3]], [[4]]]] [[[[1]], [[1]], [[1]], [[1]]]]
      [[[[25]], [[0]], [[0]], [[0]]]]
      [[[1]]] [[[1]]] (1, 1) ⟨0, 0, 0, 0⟩ [[0]] [[0]]
      [[[3, 4]]] [[[1, 0, 0, 0]]] [[[0, 0, 0]]]
    ≠ AdaptiveScalingPreciseLossFunction.call c1Conifg zeroPrims idOps none
      [[[[0]]]] [[[[3]], [[4]]]] [[[[1]], [[1]], [[1]], [[1]]]]
      [[[[0]], [[0]], [[0]], [[0]]]]
      [[[1]]] [[[1]]] (1, 1) ⟨0, 0, 0, 0⟩ [[0]] [[0]]
      [[[3, 4]]] [[[1, 0, 0, 0]]] [[[0, 0, 0]]] := by
  norm_num [AdaptiveScalingPreciseLossFunction.call,
    AdaptiveScalingPreciseLossFunction.get_label_point_feature,
    maskShapeOK, tailShape4, isRect2, charMaskFocalStep, c1Conifg,
    zeroPrims, idOps, gatedAccum, gate, cropHW, squeeze1, map3, oneMinus3,
    transposeBatch, upLeftTrimmedSlice, upLeftOnlySlice, squeezeDim2,
    l2NormDim2, smoothL1T3, smoothL1T2, smoothL1Flat, smoothL1Elem, l2T3,
    l2Flat, reduceLoss, flat3, flat2, List.zip_cons_cons, abs]

/-- C1 amended: when the distance-regulation factor is the only active
one, the precise loss is the smooth L1 (`beta = 2.5`) between the L2 norm
over the channel dimension of the up-left offset prediction gathered at
the label points and the up-left-only channel (channel 0) of the model's
own corner-distance prediction gathered at those points — a
prediction-consistency target, not an independently-labeled one. -/
theorem distanceRegulation_term_amended
    (config : AdaptiveScalingPreciseLossFunctionConifg)
    (prims : ElementaryLossPrimitives) (ops : TorchOps)
    (mask : Option Tensor4) (prob off ang dist : Tensor4)
    (sm dcm : Tensor3) (shape : Nat × Nat) (box : Box)
    (ly lx : List (List Nat)) (offsets angles distances : Tensor3)
    (offPts angPts distPts : Tensor3)
    (h1 : maskShapeOK mask prob = true)
    (h2 : tailShape4 prob shape = true)
    (hOff : AdaptiveScalingPreciseLossFunction.get_label_point_feature off ly lx
      = some offPts)
    (hAng : AdaptiveScalingPreciseLossFunction.get_label_point_feature ang ly lx
      = some angPts)
    (hDist : AdaptiveScalingPreciseLossFunction.get_label_point_feature dist ly lx
      = some distPts)
    (hm : config.char_mask_focal_factor = 0)
    (hp1 : config.char_prob_l1_factor = 0)
    (hp2 : config.char_prob_pos_l2_factor = 0)
    (hp3 : config.char_prob_neg_l2_factor = 0)
    (hp4 : config.char_prob_wahr_factor = 0)
    (ho : config.char_up_left_offset_l1_factor = 0)
    (ha : config.char_corner_angle_cross_entropy_factor = 0)
    (hd : config.char_corner_distance_l1_factor = 0)
    (hreg : 0 < config.char_up_left_distance_regulation_l1_factor) :
    AdaptiveScalingPreciseLossFunction.call config prims ops mask
      prob off ang dist sm dcm shape box ly lx offsets angles distances
    = some (config.loss_factor *
        (config.char_up_left_distance_regulation_l1_factor *
          smoothL1T2 (5/2) (l2NormDim2 ops offPts)
            (squeezeDim2 (upLeftOnlySlice distPts)))) := by
  unfold AdaptiveScalingPreciseLossFunction.call
  rw [hOff, hAng, hDist]
  simp only [h1, h2, if_true, Option.some_bind]
  have hstep : charMaskFocalStep config prims
      (mask.map fun mf => cropHW (squeeze1 mf) box) dcm = some none := by
    simp [charMaskFocalStep, hm]
  rw [hstep]
  simp only [Option.some_bind]
  rw [if_neg (by simp [hp1, hp2, hp3, hp4])]
  rw [ho, ha, hd, gatedAccum_zero, gatedAccum_zero, gatedAccum_zero]
  simp only [gatedAccum, if_pos hreg, Option.getD_none, Option.map_some']
  exact congrArg some (by ring)

/-- Closed witness for `distanceRegulation_term_amended` at the
counterexample's first input. -/
theorem distanceRegulation_term_amended_witness :
    (0 : ℚ) < c1Conifg.char_up_left_distance_regulation_l1_factor ∧
    AdaptiveScalingPreciseLossFunction.call c1Conifg zeroPrims idOps none
      [[[[0]]]] [[[[3]], [[4]]]] [[[[1]], [[1]], [[1]], [[1]]]]
      [[[[25]], [[0]], [[0]], [[0]]]]
      [[[1]]] [[[1]]] (1, 1) ⟨0, 0, 0, 0⟩ [[0]] [[0]]
      [[[3, 4]]] [[[1, 0, 0, 0]]] [[[0, 0, 0]]]
    = some (c1Conifg.loss_factor *
        (c1Conifg.char_up_left_distance_regulation_l1_factor *
          smoothL1T2 (5/2) (l2NormDim2 idOps [[[3, 4]]])
            (squeezeDim2 (upLeftOnlySlice [[[25, 0, 0, 0]]])))) :=
  ⟨by norm_num [c1Conifg],
    distanceRegulation_term_amended c1Conifg zeroPrims idOps none
      [[[[0]]]] [[[[3]], [[4]]]] [[[[1]], [[1]], [[1]], [[1]]]]
      [[[[25]], [[0]], [[0]], [[0]]]]
      [[[1]]] [[[1]]] (1, 1) ⟨0, 0, 0, 0⟩ [[0]] [[0]]
      [[[3, 4]]] [[[1, 0, 0, 0]]] [[[0, 0, 0]]]
      [[[3, 4]]] [[[1, 1, 1, 1]]] [[[25, 0, 0, 0]]]
      (by decide) (by decide) (by decide) (by decide) (by decide)
      rfl rfl rfl rfl rfl rfl rfl rfl (by norm_num [c1Conifg])⟩
